import Mathlib

/-!
Verification development for the AI infographic generator (`app.py`).

The development shallowly embeds the program's renderer
(`create_infographic_pdf`), the fenced-JSON extraction and the frontend
control flow (`main`) as executable Lean definitions, and proves the
specification's claims about them.

Python values appearing in a parsed JSON record are modelled by `PyVal`;
Python exceptions raised while rendering are modelled by `Except PyErr`.
Canvas drawing calls are recorded as a list of `DrawOp` values; geometric
coordinates use exact rationals (`inch = 72`, A4 page size).
-/

/-- Model of a Python value as found in a parsed JSON record.
JSON numbers are modelled by integers; floating point is not needed by any
claim. -/
inductive PyVal where
  | str (s : String)
  | int (n : Int)
  | bool (b : Bool)
  | list (xs : List PyVal)
  | dict (kvs : List (String × PyVal))
  | none
deriving Repr

/-- Model of a Python exception: the constructor is the exception class and
the field its message (what `str(e)` yields). -/
inductive PyErr where
  | attributeError (msg : String)
  | typeError (msg : String)
deriving Repr, DecidableEq

/-- Python's `type(v).__name__` for the modelled values. -/
def pyTypeName : PyVal → String
  | .str _ => "str"
  | .int _ => "int"
  | .bool _ => "bool"
  | .list _ => "list"
  | .dict _ => "dict"
  | .none => "NoneType"

/-- The `AttributeError` raised by `v.attr` when `v` has no such attribute. -/
def noAttr (v : PyVal) (attr : String) : PyErr :=
  .attributeError ("\x27" ++ pyTypeName v ++ "\x27 object has no attribute \x27" ++ attr ++ "\x27")

/-- Python's `repr` for the modelled values (element form used inside
`str` of containers). -/
def pyRepr : PyVal → String
  | .str s => "\x27" ++ s ++ "\x27"
  | .int n => toString n
  | .bool b => if b then "True" else "False"
  | .none => "None"
  | .list xs => "[" ++ String.intercalate ", " (xs.attach.map (fun x => pyRepr x.1)) ++ "]"
  | .dict kvs =>
      "\x7b" ++ String.intercalate ", "
        (kvs.attach.map (fun kv => "\x27" ++ kv.1.1 ++ "\x27: " ++ pyRepr kv.1.2)) ++ "\x7d"
decreasing_by
  · have := List.sizeOf_lt_of_mem x.2
    simp only [PyVal.list.sizeOf_spec]
    omega
  · have h1 := List.sizeOf_lt_of_mem kv.2
    have h2 : sizeOf kv.1.2 < sizeOf kv.1 := by
      obtain ⟨a, b⟩ := kv.1
      simp only [Prod.mk.sizeOf_spec]
      omega
    simp only [PyVal.dict.sizeOf_spec]
    omega

/-- Python's `str(v)` (also the result of interpolating `v` in an f-string). -/
def pyStr : PyVal → String
  | .str s => s
  | .int n => toString n
  | .bool b => if b then "True" else "False"
  | .none => "None"
  | .list xs => pyRepr (.list xs)
  | .dict kvs => pyRepr (.dict kvs)

/-- First value stored under key `k`, if any (model of `k in d` lookup). -/
def findVal (data : List (String × PyVal)) (k : String) : Option PyVal :=
  (data.find? (fun kv => kv.1 = k)).map (fun kv => kv.2)

/-- Python's `d.get(k, dflt)` on a dict. -/
def dictGet (data : List (String × PyVal)) (k : String) (dflt : PyVal) : PyVal :=
  (findVal data k).getD dflt

/-- Total helper used in theorem statements: `v.get(k, dflt)` when `v` is a
dict, otherwise the default. -/
def pyGet (v : PyVal) (k : String) (dflt : PyVal) : PyVal :=
  match v with
  | .dict kvs => dictGet kvs k dflt
  | _ => dflt

/-! ## Whitespace splitting (Python `str.split()` with no separator) -/

/-- Worker for Python's `str.split()`: splits a character list on runs of
whitespace, discarding empty pieces; `acc` is the word currently being read. -/
def splitWsGo : List Char → List Char → List (List Char)
  | [], acc => if acc = [] then [] else [acc]
  | c :: cs, acc =>
    if c.isWhitespace then
      if acc = [] then splitWsGo cs [] else acc :: splitWsGo cs []
    else
      splitWsGo cs (acc ++ [c])

/-- Python's `s.split()`: whitespace-delimited words of `s`. -/
def pySplit (s : String) : List String :=
  (splitWsGo s.data []).map (fun w => String.mk w)

/-- Python's `.split()` on a record field: only a `str` has this attribute. -/
def pySplitVal : PyVal → Except PyErr (List String)
  | .str s => .ok (pySplit s)
  | v => .error (noAttr v "split")

/-! ## Joining (Python `" ".join`) and the renderer's word-wrap -/

/-- Character-level join with a single separator character between pieces. -/
def joinC (sep : Char) : List (List Char) → List Char
  | [] => []
  | [w] => w
  | w :: ws => w ++ sep :: joinC sep ws

/-- Python's `" ".join(line)`. -/
def joinSpace (ws : List String) : String :=
  String.mk (joinC ' ' (ws.map String.data))

/-- Rejoining wrapped lines into a single text, each line break becoming a
newline character (used to state re-wrap idempotence). -/
def rejoinNl (lines : List String) : String :=
  String.mk (joinC '\n' (lines.map String.data))

/-- The renderer's word-wrap loop (`app.py` lines 96-102): words are appended
to `line`; once the joined line exceeds `t` characters it is flushed; the
final buffer is flushed unconditionally after the loop. -/
def wrapGo (t : Nat) : List String → List String → List String
  | [], line => [joinSpace line]
  | w :: ws, line =>
    let line2 := line ++ [w]
    if (joinSpace line2).length > t then joinSpace line2 :: wrapGo t ws []
    else wrapGo t ws line2

/-- Word-wrap of a summary string at threshold `t` as the renderer performs
it (split on whitespace, then the flush loop). -/
def wrapSummary (t : Nat) (s : String) : List String :=
  wrapGo t (pySplit s) []

/-- The groups of words underlying each wrapped line (same recursion as
`wrapGo` but keeping the word lists). -/
def wrapGroups (t : Nat) : List String → List String → List (List String)
  | [], line => [line]
  | w :: ws, line =>
    let line2 := line ++ [w]
    if (joinSpace line2).length > t then line2 :: wrapGroups t ws []
    else wrapGroups t ws line2

/-- The loop's line buffer as it stands after all words were consumed
(the unconditional final flush emits exactly `joinSpace` of this). -/
def finalBuf (t : Nat) : List String → List String → List String
  | [], line => line
  | w :: ws, line =>
    let line2 := line ++ [w]
    if (joinSpace line2).length > t then finalBuf t ws []
    else finalBuf t ws line2

/-- One step of the wrap procedure as the specification words it: append the
word to the line buffer; when the space-joined buffer length exceeds the
threshold, flush the buffer as one emitted line and start a new empty buffer. -/
def wrapStep (t : Nat) (st : List String × List String) (w : String) :
    List String × List String :=
  let buf := st.2 ++ [w]
  if (joinSpace buf).length > t then (st.1 ++ [joinSpace buf], []) else (st.1, buf)

/-- The wrap procedure exactly as the specification words it: split the
summary on whitespace into words, fold them through the (emitted lines, line
buffer) state, then flush the remaining buffer as the final line. Stated
from the spec's sentences, to be compared with the renderer's `wrapGo`. -/
def wrapSpec (t : Nat) (summary : String) : List String :=
  let fin := (pySplit summary).foldl (wrapStep t) ([], [])
  fin.1 ++ [joinSpace fin.2]

/-! ## The PDF renderer (`create_infographic_pdf`) -/

/-- The named ReportLab colors the renderer uses. -/
inductive Color where
  | whitesmoke | cornflowerblue | white | black | gray
deriving Repr, DecidableEq

/-- One canvas drawing call issued by the renderer.  A ReportLab text object
(`beginText` / `setFont` / `setLeading` / repeated `textLine` / `drawText`)
is recorded as a single `drawText` operation carrying its origin, leading,
font and the emitted lines. -/
inductive DrawOp where
  | setFillColor (c : Color)
  | rect (x y w h : ℚ) (fill stroke : Bool)
  | setFont (name : String) (size : ℚ)
  | drawCentredString (x y : ℚ) (s : String)
  | drawString (x y : ℚ) (s : String)
  | roundRect (x y w h radius : ℚ) (fill stroke : Bool)
  | drawText (x y leading : ℚ) (font : String) (size : ℚ) (lines : List String)
  | save
deriving Repr, DecidableEq

/-- One point per ReportLab unit; `inch = 72`. -/
def inchQ : ℚ := 72

/-- A4 width in points (210 mm), as an exact rational. -/
def A4w : ℚ := 75600 / 127

/-- A4 height in points (297 mm), as an exact rational. -/
def A4h : ℚ := 106920 / 127

/-- The y coordinate of the "Key Statistics" heading. -/
def statsY : ℚ := A4h - 5/2 * inchQ

/-- The y coordinate of the bottom edge of the stat boxes (`box_y`). -/
def boxY : ℚ := statsY - 3/2 * inchQ

/-- The fixed stat box width (`box_width = 2.2*inch`). -/
def boxW : ℚ := 11/5 * inchQ

/-- The x coordinate of stat box `i` (`0.5*inch + i*(box_width + 0.2*inch)`). -/
def slotX (i : ℕ) : ℚ := 1/2 * inchQ + i * (boxW + 1/5 * inchQ)

/-- The y coordinate of the "Executive Summary" heading. -/
def sumHeadY : ℚ := boxY - 1/2 * inchQ

/-- The y coordinate where the summary text object begins. -/
def sumTextY : ℚ := sumHeadY - 3/10 * inchQ

/-- The y coordinate of the "Did You Know?" heading when the summary text
object emitted `n` lines (`text_object.getY() - 0.5*inch`; each `textLine`
lowers the cursor by the leading of 14). -/
def dykY (n : ℕ) : ℚ := sumTextY - 14 * n - 1/2 * inchQ

/-- Drawing operations of one stat box at slot `i` for a dict entry. -/
def boxOpsD (i : ℕ) (kvs : List (String × PyVal)) : List DrawOp :=
  [ .setFillColor .white,
    .roundRect (slotX i) boxY boxW (6/5 * inchQ) 10 true false,
    .setFillColor .cornflowerblue,
    .setFont "Helvetica-Bold" 20,
    .drawCentredString (slotX i + boxW / 2) (boxY + 7/10 * inchQ) (pyStr (dictGet kvs "value" (.str ""))),
    .setFillColor .gray,
    .setFont "Helvetica" 10,
    .drawCentredString (slotX i + boxW / 2) (boxY + 2/5 * inchQ) (pyStr (dictGet kvs "label" (.str ""))) ]

/-- The loop body for `stat` at index `i`: `stat.get(...)` requires a dict,
any other value raises `AttributeError`. -/
def statBox (i : ℕ) : PyVal → Except PyErr (List DrawOp)
  | .dict kvs => .ok (boxOpsD i kvs)
  | v => .error (noAttr v "get")

/-- The `for i, stat in enumerate(stats[:3])` loop, starting at index `i`. -/
def statsOpsGo (i : ℕ) : List PyVal → Except PyErr (List DrawOp)
  | [] => .ok []
  | stat :: rest =>
    match statBox i stat with
    | .error e => .error e
    | .ok ops =>
      match statsOpsGo (i + 1) rest with
      | .error e => .error e
      | .ok more => .ok (ops ++ more)

/-- Python's `stats[:3]`: slicing is defined for lists and strings, raises
`TypeError` otherwise. -/
def pySlice3 : PyVal → Except PyErr (List PyVal)
  | .list xs => .ok (xs.take 3)
  | .str s => .ok ((s.data.take 3).map (fun c => .str (String.mk [c])))
  | v => .error (.typeError ("\x27" ++ pyTypeName v ++ "\x27 object is not subscriptable"))

/-- Background, header banner and title operations. -/
def headerOps (data : List (String × PyVal)) : List DrawOp :=
  [ .setFillColor .whitesmoke,
    .rect 0 0 A4w A4h true true,
    .setFillColor .cornflowerblue,
    .rect 0 (A4h - 3/2 * inchQ) A4w (3/2 * inchQ) true false,
    .setFillColor .white,
    .setFont "Helvetica-Bold" 30,
    .drawCentredString (A4w / 2) (A4h - inchQ)
      ("Infographic: " ++ pyStr (dictGet data "topic" (.str "Unknown Topic"))) ]

/-- The "Key Statistics" heading operations. -/
def statsHeadOps : List DrawOp :=
  [ .setFillColor .black, .setFont "Helvetica-Bold" 16,
    .drawString (1/2 * inchQ) statsY "Key Statistics" ]

/-- The "Executive Summary" heading operations. -/
def sumHeadOps : List DrawOp :=
  [ .setFillColor .black, .setFont "Helvetica-Bold" 16,
    .drawString (1/2 * inchQ) sumHeadY "Executive Summary" ]

/-- The "Did You Know?" section operations, after `n` summary lines. -/
def funFactOps (data : List (String × PyVal)) (n : ℕ) : List DrawOp :=
  [ .setFillColor .black, .setFont "Helvetica-Bold" 16,
    .drawString (1/2 * inchQ) (dykY n) "Did You Know?",
    .setFont "Helvetica-Oblique" 11,
    .drawString (1/2 * inchQ) (dykY n - 3/10 * inchQ)
      ("• " ++ pyStr (dictGet data "fun_fact" (.str ""))) ]

/-- Shallow embedding of `create_infographic_pdf(data, filename)`:
the sequence of canvas operations issued and the returned filename, or the
Python exception raised while reading the record.  Mirrors `app.py`
lines 38-116. -/
def create_infographic_pdf (data : List (String × PyVal)) (filename : String) :
    Except PyErr (List DrawOp × String) :=
  match pySlice3 (dictGet data "stats" (.list [])) with
  | .error e => .error e
  | .ok statsL =>
    match statsOpsGo 0 statsL with
    | .error e => .error e
    | .ok boxOps =>
      match pySplitVal (dictGet data "summary" (.str "No summary available.")) with
      | .error e => .error e
      | .ok words =>
        let lines := wrapGo 80 words []
        .ok (headerOps data ++ statsHeadOps ++ boxOps ++ sumHeadOps ++
             [DrawOp.setFont "Helvetica" 11,
              DrawOp.drawText (1/2 * inchQ) sumTextY 14 "Helvetica" 11 lines] ++
             funFactOps data lines.length ++ [DrawOp.save], filename)

/-! ## Observers over the operation list -/

/-- All `roundRect` calls (the stat boxes), as (x, y, w, h, radius). -/
def rrOf (ops : List DrawOp) : List (ℚ × ℚ × ℚ × ℚ × ℚ) :=
  ops.filterMap (fun op => match op with
    | .roundRect x y w h r _ _ => some (x, y, w, h, r)
    | _ => Option.none)

/-- All `drawCentredString` calls, as (x, y, text). -/
def centredOf (ops : List DrawOp) : List (ℚ × ℚ × String) :=
  ops.filterMap (fun op => match op with
    | .drawCentredString x y s => some (x, y, s)
    | _ => Option.none)

/-- All `drawString` texts, in order. -/
def drawStrsOf (ops : List DrawOp) : List String :=
  ops.filterMap (fun op => match op with
    | .drawString _ _ s => some s
    | _ => Option.none)

/-- The line lists of all text objects drawn, in order. -/
def textsOf (ops : List DrawOp) : List (List String) :=
  ops.filterMap (fun op => match op with
    | .drawText _ _ _ _ _ lines => some lines
    | _ => Option.none)

/-- The y coordinate of a `drawString` op when it draws the "Did You Know?"
heading. -/
def dykEntryOf : DrawOp → Option ℚ
  | .drawString _ y s => if s = "Did You Know?" then some y else Option.none
  | _ => Option.none

/-- The y coordinate at which the "Did You Know?" heading was drawn. -/
def dykYOf (ops : List DrawOp) : Option ℚ :=
  (ops.filterMap dykEntryOf).head?

/-- The summary lines a successful render draws (its single text object). -/
def linesDrawn (r : Except PyErr (List DrawOp × String)) : Option (List String) :=
  match r with
  | .ok (ops, _) => (textsOf ops).head?
  | .error _ => Option.none

/-! ## Python `str.split(sep)` and the fenced-JSON extraction in `main` -/

/-- Whether `pat` is an initial segment of `s`. -/
def leadsWith : List Char → List Char → Bool
  | [], _ => true
  | _ :: _, [] => false
  | a :: pas, b :: bs => a = b && leadsWith pas bs

/-- Fuel-driven worker for Python's `s.split(sep)`: scans left to right,
splitting at each non-overlapping occurrence of `sep`.  `fuel` at least the
length of the remaining input makes the fuel case unreachable. -/
def splitFuel (sep : List Char) : ℕ → List Char → List Char → List (List Char)
  | 0, s, cur => [cur ++ s]
  | _ + 1, [], cur => [cur]
  | fuel + 1, c :: cs, cur =>
    if leadsWith sep (c :: cs) then
      cur :: splitFuel sep fuel (cs.drop (sep.length - 1)) []
    else
      splitFuel sep fuel cs (cur ++ [c])

/-- Python's `s.split(sep)` for a non-empty separator. -/
def pySplitOn (s sep : String) : List String :=
  (splitFuel sep.data s.data.length s.data []).map (fun w => String.mk w)

/-- Python's `sub in s` substring test, for non-empty `sub`. -/
def pyContains (s sub : String) : Bool :=
  2 ≤ (pySplitOn s sub).length

/-- Python's `s.strip()`: drop leading and trailing whitespace. -/
def pyStrip (s : String) : String :=
  String.mk (((s.data.dropWhile Char.isWhitespace).reverse.dropWhile Char.isWhitespace).reverse)

/-- The plain code fence marker. -/
def fenceMark : String := "```"

/-- The json-tagged code fence marker. -/
def jsonFenceMark : String := "```json"

/-- The fence-stripping step of `main` (`app.py` lines 222-225): prefer the
first "```json" fence, else the first plain "```" fence, else the raw text. -/
def cleanJson (raw : String) : String :=
  if pyContains raw jsonFenceMark then
    (pySplitOn ((pySplitOn raw jsonFenceMark).getD 1 "") fenceMark).getD 0 ""
  else if pyContains raw fenceMark then
    (pySplitOn ((pySplitOn raw fenceMark).getD 1 "") fenceMark).getD 0 ""
  else raw

/-! ## The Streamlit frontend flow (`main`) -/

/-- One user-visible Streamlit call made inside the generate-button branch. -/
inductive UIEvent where
  | errorMsg (msg : String)
  | warnMsg (msg : String)
  | successMsg (msg : String)
  | markdownMsg (msg : String)
  | infoMsg (v : PyVal)
  | metric (label value : PyVal)
  | downloadButton (label fileName mime : String)
deriving Repr

/-- Outcome of one press of the generate button: whether the research
pipeline was invoked, the Streamlit calls made, and the written artifact
(drawing operations and path), if any. -/
structure RunResult where
  crewCalled : Bool
  events : List UIEvent
  artifact : Option (List DrawOp × String)
deriving Repr

/-- The hint shown beneath the generic error message. -/
def hintMsg : String :=
  "If you get a 404 error, check your API Key permissions or try using model=\x27gemini/gemini-1.5-flash-latest\x27 in app.py"

/-- The message of a modelled Python exception (`str(e)`). -/
def pyErrMsg : PyErr → String
  | .attributeError m => m
  | .typeError m => m

/-- Python iteration (`for ... in v`): lists yield elements, strings yield
their characters, dicts their keys; other values raise `TypeError`. -/
def pyIterate : PyVal → Except PyErr (List PyVal)
  | .list xs => .ok xs
  | .str s => .ok (s.data.map (fun c => PyVal.str (String.mk [c])))
  | .dict kvs => .ok (kvs.map (fun kv => PyVal.str kv.1))
  | v => .error (.typeError ("\x27" ++ pyTypeName v ++ "\x27 object is not iterable"))

/-- The `for i, stat in enumerate(stats)` metrics loop (`app.py` 236-238):
emits a metric for each of the first three stats; a non-dict stat raises on
`stat.get` after the earlier metrics were already shown. -/
def metricsEvents (i : ℕ) : List PyVal → List UIEvent × Option PyErr
  | [] => ([], Option.none)
  | stat :: rest =>
    if i < 3 then
      match stat with
      | .dict kvs =>
        let more := metricsEvents (i + 1) rest
        (.metric (dictGet kvs "label" .none) (dictGet kvs "value" .none) :: more.1, more.2)
      | v => ([], some (noAttr v "get"))
    else metricsEvents (i + 1) rest

/-- The displayed results and PDF generation after a successful JSON parse
(`app.py` lines 230-250): events already emitted, the artifact if the PDF
was written, and the exception if one was raised part-way. -/
def tryDisplay (topic : String) (dataV : PyVal) :
    List UIEvent × Option (List DrawOp × String) × Option String :=
  match dataV with
  | .dict data =>
    let ev0 : List UIEvent :=
      [ .successMsg "Success!",
        .markdownMsg ("## 📊 " ++ pyStr (dictGet data "topic" (.str topic))),
        .infoMsg (dictGet data "summary" .none) ]
    match pyIterate (dictGet data "stats" (.list [])) with
    | .error e => (ev0, Option.none, some (pyErrMsg e))
    | .ok stats =>
      let met := metricsEvents 0 stats
      match met.2 with
      | some e => (ev0 ++ met.1, Option.none, some (pyErrMsg e))
      | Option.none =>
        let ev1 := ev0 ++ met.1 ++
          [UIEvent.warnMsg ("Did you know? " ++ pyStr (dictGet data "fun_fact" .none))]
        match create_infographic_pdf data "infographic.pdf" with
        | .error e => (ev1, Option.none, some (pyErrMsg e))
        | .ok (ops, pdfFile) =>
          (ev1 ++ [UIEvent.downloadButton "Download PDF" (topic ++ "_infographic.pdf") "application/pdf"],
           some (ops, pdfFile), Option.none)
  | v => ([UIEvent.successMsg "Success!"], Option.none, some (pyErrMsg (noAttr v "get")))

/-- Shallow embedding of the generate-button branch of `main` (`app.py`
lines 209-256).  The upstream crew call is modelled by its returned text
`crewOutput`; `json.loads` is modelled by the parameter `parse` (returning
the parsed value or the decode-error message). -/
def mainRun (apiKey topic crewOutput : String)
    (parse : String → Except String PyVal) : RunResult :=
  if apiKey = "" then
    ⟨false, [.errorMsg "Please enter your API Key."], Option.none⟩
  else if topic = "" then
    ⟨false, [.warnMsg "Please enter a topic."], Option.none⟩
  else
    let raw_json := cleanJson (pyStrip crewOutput)
    let res :
        List UIEvent × Option (List DrawOp × String) × Option String :=
      match parse raw_json with
      | .error e => ([], Option.none, some e)
      | .ok dataV => tryDisplay topic dataV
    match res.2.2 with
    | some e => ⟨true, res.1 ++ [.errorMsg ("Error: " ++ e), .warnMsg hintMsg], res.2.1⟩
    | Option.none => ⟨true, res.1, res.2.1⟩

/-! ## Word-wrap lemmas -/

theorem joinSpace_nil : joinSpace [] = "" := rfl

theorem wrapGo_eq_groups (t : ℕ) (ws : List String) :
    ∀ line, wrapGo t ws line = (wrapGroups t ws line).map joinSpace := by
  induction ws with
  | nil => intro line; simp [wrapGo, wrapGroups]
  | cons w ws ih =>
    intro line
    simp only [wrapGo, wrapGroups]
    split
    · simp [ih]
    · exact ih _

theorem wrapGroups_join (t : ℕ) (ws : List String) :
    ∀ line, (wrapGroups t ws line).flatten = line ++ ws := by
  induction ws with
  | nil => intro line; simp [wrapGroups]
  | cons w ws ih =>
    intro line
    simp only [wrapGroups]
    split
    · simp [ih]
    · simp [ih]

theorem wrapGo_length_pos (t : ℕ) (ws : List String) :
    ∀ line, 1 ≤ (wrapGo t ws line).length := by
  induction ws with
  | nil => intro line; simp [wrapGo]
  | cons w ws ih =>
    intro line
    simp only [wrapGo]
    split
    · simp
    · exact ih _

theorem wrapSpec_loop (t : ℕ) (ws : List String) :
    ∀ acc line,
      (ws.foldl (wrapStep t) (acc, line)).1 ++
        [joinSpace (ws.foldl (wrapStep t) (acc, line)).2] = acc ++ wrapGo t ws line := by
  induction ws with
  | nil => intro acc line; simp [wrapGo]
  | cons w ws ih =>
    intro acc line
    simp only [List.foldl_cons, wrapGo, wrapStep]
    split
    · rw [ih]; simp
    · rw [ih]

theorem wrapSummary_eq_wrapSpec (t : ℕ) (s : String) :
    wrapSummary t s = wrapSpec t s := by
  unfold wrapSummary wrapSpec
  have := wrapSpec_loop t (pySplit s) [] []
  simpa using this.symm

theorem wrapGo_finalBuf (t : ℕ) (ws : List String) :
    ∀ line, ∃ L, wrapGo t ws line = L ++ [joinSpace (finalBuf t ws line)] := by
  induction ws with
  | nil => intro line; exact ⟨[], rfl⟩
  | cons w ws ih =>
    intro line
    simp only [wrapGo, finalBuf]
    split
    · obtain ⟨L, hL⟩ := ih []
      exact ⟨joinSpace (line ++ [w]) :: L, by simp [hL]⟩
    · exact ih _

theorem wrapGo_two_of_finalBuf_nil (t : ℕ) (ws : List String) :
    ∀ line, ws ≠ [] → finalBuf t ws line = [] → 2 ≤ (wrapGo t ws line).length := by
  induction ws with
  | nil => intro line h; exact absurd rfl h
  | cons w ws ih =>
    intro line _ hfb
    simp only [wrapGo, finalBuf] at *
    by_cases hc : (joinSpace (line ++ [w])).length > t
    · simp only [if_pos hc, List.length_cons]
      have := wrapGo_length_pos t ws []
      omega
    · simp only [if_neg hc] at hfb ⊢
      rcases ws with _ | ⟨w', ws'⟩
      · simp [finalBuf] at hfb
      · exact ih _ (by simp) hfb

/-! ## Whitespace-split lemmas -/

theorem splitWsGo_word (w : List Char) :
    ∀ cs acc, (∀ c ∈ w, c.isWhitespace = false) →
      splitWsGo (w ++ cs) acc = splitWsGo cs (acc ++ w) := by
  induction w with
  | nil => intro cs acc _; simp
  | cons c w ih =>
    intro cs acc h
    have hc : c.isWhitespace = false := h c (List.mem_cons_self c w)
    simp only [List.cons_append, splitWsGo, List.append_eq, hc, Bool.false_eq_true, if_false]
    rw [ih cs (acc ++ [c]) (fun x hx => h x (List.mem_cons_of_mem c hx))]
    simp

theorem splitWsGo_good (cs : List Char) :
    ∀ acc, (∀ c ∈ acc, c.isWhitespace = false) →
      ∀ w ∈ splitWsGo cs acc, w ≠ [] ∧ ∀ c ∈ w, c.isWhitespace = false := by
  induction cs with
  | nil =>
    intro acc hacc w hw
    simp only [splitWsGo] at hw
    split at hw
    · simp at hw
    · rename_i hne
      simp only [List.mem_singleton] at hw
      subst hw
      exact ⟨hne, hacc⟩
  | cons c cs ih =>
    intro acc hacc w hw
    simp only [splitWsGo] at hw
    split at hw
    · split at hw
      · exact ih [] (by simp) w hw
      · rename_i hne
        rcases List.mem_cons.mp hw with h | h
        · subst h; exact ⟨hne, hacc⟩
        · exact ih [] (by simp) w h
    · rename_i hcw
      refine ih (acc ++ [c]) ?_ w hw
      intro x hx
      rcases List.mem_append.mp hx with h | h
      · exact hacc x h
      · simp only [List.mem_singleton] at h
        subst h
        simpa using hcw

theorem splitWsGo_join_sep (sp : Char) (hsp : sp.isWhitespace = true)
    (c0 : Char) (hc0 : c0.isWhitespace = true) (ws : List (List Char))
    (h : ∀ w ∈ ws, w ≠ [] ∧ ∀ c ∈ w, c.isWhitespace = false) :
    ∀ cs, splitWsGo (joinC sp ws ++ c0 :: cs) [] = ws ++ splitWsGo cs [] := by
  induction ws with
  | nil => intro cs; simp [joinC, splitWsGo, hc0]
  | cons w tail ih =>
    intro cs
    obtain ⟨hne, hweq⟩ := h w (List.mem_cons_self w tail)
    have hrest : ∀ x ∈ tail, x ≠ [] ∧ ∀ c ∈ x, c.isWhitespace = false :=
      fun x hx => h x (List.mem_cons_of_mem w hx)
    rcases tail with _ | ⟨w', t⟩
    · simp only [joinC]
      rw [splitWsGo_word w (c0 :: cs) [] hweq]
      simp [splitWsGo, hc0, hne]
    · simp only [joinC, List.append_assoc, List.cons_append]
      rw [splitWsGo_word w (sp :: (joinC sp (w' :: t) ++ c0 :: cs)) [] hweq]
      simp only [List.nil_append, splitWsGo, hsp, ite_true]
      rw [if_neg hne, ih hrest cs]
      simp

theorem splitWsGo_join (sp : Char) (hsp : sp.isWhitespace = true)
    (ws : List (List Char))
    (h : ∀ w ∈ ws, w ≠ [] ∧ ∀ c ∈ w, c.isWhitespace = false) :
    splitWsGo (joinC sp ws) [] = ws := by
  induction ws with
  | nil => simp [joinC, splitWsGo]
  | cons w tail ih =>
    obtain ⟨hne, hweq⟩ := h w (List.mem_cons_self w tail)
    have hrest : ∀ x ∈ tail, x ≠ [] ∧ ∀ c ∈ x, c.isWhitespace = false :=
      fun x hx => h x (List.mem_cons_of_mem w hx)
    rcases tail with _ | ⟨w', t⟩
    · simp only [joinC]
      have := splitWsGo_word w [] [] hweq
      simp only [List.append_nil, List.nil_append] at this
      rw [this]
      simp [splitWsGo, hne]
    · simp only [joinC]
      rw [splitWsGo_word w (sp :: joinC sp (w' :: t)) [] hweq]
      simp only [List.nil_append, splitWsGo, hsp, ite_true]
      rw [if_neg hne, ih hrest]

theorem splitWs_doc (gs : List (List (List Char)))
    (h : ∀ w ∈ gs.flatten, w ≠ [] ∧ ∀ c ∈ w, c.isWhitespace = false) :
    splitWsGo (joinC '\n' (gs.map (joinC ' '))) [] = gs.flatten := by
  induction gs with
  | nil => simp [joinC, splitWsGo]
  | cons g tail ih =>
    rcases tail with _ | ⟨g', t⟩
    · have hg : ∀ w ∈ g, w ≠ [] ∧ ∀ c ∈ w, c.isWhitespace = false :=
        fun w hw => h w (by simp [hw])
      simp only [List.map_cons, List.map_nil, joinC, List.flatten_cons, List.flatten_nil,
        List.append_nil]
      exact splitWsGo_join ' ' (by decide) g hg
    · have hg : ∀ w ∈ g, w ≠ [] ∧ ∀ c ∈ w, c.isWhitespace = false :=
        fun w hw => h w (by simp [hw])
      have hrest : ∀ w ∈ (g' :: t).flatten, w ≠ [] ∧ ∀ c ∈ w, c.isWhitespace = false :=
        fun w hw => h w (by
          simp only [List.flatten_cons] at hw ⊢
          exact List.mem_append_right g hw)
      calc splitWsGo (joinC '\n' (List.map (joinC ' ') (g :: g' :: t))) []
          = splitWsGo (joinC ' ' g ++ '\n' :: joinC '\n' (List.map (joinC ' ') (g' :: t))) [] :=
            rfl
        _ = g ++ splitWsGo (joinC '\n' (List.map (joinC ' ') (g' :: t))) [] :=
            splitWsGo_join_sep ' ' (by decide) '\n' (by decide) g hg
              (joinC '\n' (List.map (joinC ' ') (g' :: t)))
        _ = g ++ (g' :: t).flatten := by rw [ih hrest]
        _ = (g :: g' :: t).flatten := by simp

theorem mk_data_eq (w : String) : String.mk w.data = w := rfl

theorem map_mk_data (l : List String) : (l.map String.data).map String.mk = l := by
  induction l with
  | nil => rfl
  | cons w l ih => simp [ih]

theorem pySplit_good (s : String) :
    ∀ w ∈ pySplit s, w.data ≠ [] ∧ ∀ c ∈ w.data, c.isWhitespace = false := by
  intro w hw
  obtain ⟨w', hw', rfl⟩ := List.mem_map.mp hw
  exact splitWsGo_good s.data [] (by simp) w' hw'

theorem pySplit_rejoin (ws : List String)
    (h : ∀ w ∈ ws, w.data ≠ [] ∧ ∀ c ∈ w.data, c.isWhitespace = false)
    (gs : List (List String)) (hg : gs.flatten = ws) :
    pySplit (rejoinNl (gs.map joinSpace)) = ws := by
  have hdata : (rejoinNl (gs.map joinSpace)).data
      = joinC '\n' ((gs.map (List.map String.data)).map (joinC ' ')) := by
    simp only [rejoinNl, List.map_map]
    rfl
  have hjoin : (gs.map (List.map String.data)).flatten = ws.map String.data := by
    rw [← List.map_flatten, hg]
  have hgood : ∀ w ∈ (gs.map (List.map String.data)).flatten,
      w ≠ [] ∧ ∀ c ∈ w, c.isWhitespace = false := by
    rw [hjoin]
    intro w hw
    obtain ⟨w', hw', rfl⟩ := List.mem_map.mp hw
    exact h w' hw'
  unfold pySplit
  rw [hdata, splitWs_doc _ hgood, hjoin, map_mk_data]

/-! ## Renderer characterization -/

theorem dyk_filter_nil (ops : List DrawOp) :
    drawStrsOf ops = [] → ops.filterMap dykEntryOf = [] := by
  induction ops with
  | nil => intro _; rfl
  | cons op rest ih =>
    intro h
    unfold drawStrsOf at h
    rw [List.filterMap_cons] at h
    rw [List.filterMap_cons]
    cases op <;> first
      | exact ih h
      | simp at h

theorem statsOpsGo_ok (l : List PyVal) :
    ∀ i, (∀ x ∈ l, ∃ kvs, x = PyVal.dict kvs) →
    ∃ bops, statsOpsGo i l = .ok bops ∧
      rrOf bops = (List.range' i l.length).map
        (fun j => (slotX j, boxY, boxW, 6/5 * inchQ, (10 : ℚ))) ∧
      centredOf bops = (((List.range' i l.length).zip l).map (fun p =>
        [(slotX p.1 + boxW / 2, boxY + 7/10 * inchQ, pyStr (pyGet p.2 "value" (.str ""))),
         (slotX p.1 + boxW / 2, boxY + 2/5 * inchQ, pyStr (pyGet p.2 "label" (.str "")))])).flatten ∧
      drawStrsOf bops = [] ∧ textsOf bops = [] := by
  induction l with
  | nil =>
    intro i _
    exact ⟨[], rfl, by simp [rrOf], by simp [centredOf], rfl, rfl⟩
  | cons x rest ih =>
    intro i h
    obtain ⟨kvs, rfl⟩ := h x (List.mem_cons_self x rest)
    obtain ⟨bops, hb, hrr, hcen, hds, htx⟩ :=
      ih (i + 1) (fun y hy => h y (List.mem_cons_of_mem _ hy))
    refine ⟨boxOpsD i kvs ++ bops, ?_, ?_, ?_, ?_, ?_⟩
    · simp [statsOpsGo, statBox, hb]
    · simp [rrOf, List.filterMap_append, List.range'_succ] at hrr ⊢
      rw [hrr]
      simp [boxOpsD]
    · simp [centredOf, List.filterMap_append, List.range'_succ, List.zip_cons_cons] at hcen ⊢
      rw [hcen]
      simp [boxOpsD, pyGet]
    · unfold drawStrsOf at hds ⊢
      rw [List.filterMap_append, hds]
      simp [boxOpsD]
    · unfold textsOf at htx ⊢
      rw [List.filterMap_append, htx]
      simp [boxOpsD]

theorem create_ok (data : List (String × PyVal)) (fn : String) (xs : List PyVal)
    (sumS : String)
    (hstats : dictGet data "stats" (.list []) = .list xs)
    (hdict : ∀ x ∈ xs.take 3, ∃ kvs, x = PyVal.dict kvs)
    (hsum : dictGet data "summary" (.str "No summary available.") = .str sumS) :
    ∃ ops, create_infographic_pdf data fn = .ok (ops, fn) ∧
      rrOf ops = (List.range' 0 (min 3 xs.length)).map
        (fun j => (slotX j, boxY, boxW, 6/5 * inchQ, (10 : ℚ))) ∧
      centredOf ops =
        (A4w / 2, A4h - inchQ,
          "Infographic: " ++ pyStr (dictGet data "topic" (.str "Unknown Topic"))) ::
        (((List.range' 0 (min 3 xs.length)).zip (xs.take 3)).map (fun p =>
          [(slotX p.1 + boxW / 2, boxY + 7/10 * inchQ, pyStr (pyGet p.2 "value" (.str ""))),
           (slotX p.1 + boxW / 2, boxY + 2/5 * inchQ, pyStr (pyGet p.2 "label" (.str "")))])).flatten ∧
      textsOf ops = [wrapGo 80 (pySplit sumS) []] ∧
      drawStrsOf ops = ["Key Statistics", "Executive Summary", "Did You Know?",
        "• " ++ pyStr (dictGet data "fun_fact" (.str ""))] ∧
      dykYOf ops = some (dykY (wrapGo 80 (pySplit sumS) []).length) := by
  obtain ⟨bops, hb, hrr, hcen, hds, htx⟩ := statsOpsGo_ok (xs.take 3) 0 hdict
  have hlen : (xs.take 3).length = min 3 xs.length := by
    simp [List.length_take]
  rw [hlen] at hrr hcen
  refine ⟨headerOps data ++ statsHeadOps ++ bops ++ sumHeadOps ++
      [DrawOp.setFont "Helvetica" 11,
       DrawOp.drawText (1/2 * inchQ) sumTextY 14 "Helvetica" 11 (wrapGo 80 (pySplit sumS) [])] ++
      funFactOps data (wrapGo 80 (pySplit sumS) []).length ++ [DrawOp.save],
    ?_, ?_, ?_, ?_, ?_, ?_⟩
  · unfold create_infographic_pdf
    rw [hstats, hsum]
    simp only [pySlice3, pySplitVal]
    rw [hb]
  · unfold rrOf at hrr ⊢
    simp only [List.filterMap_append, hrr]
    simp [headerOps, statsHeadOps, sumHeadOps, funFactOps]
  · unfold centredOf at hcen ⊢
    simp only [List.filterMap_append, hcen]
    simp [headerOps, statsHeadOps, sumHeadOps, funFactOps]
  · unfold textsOf at htx ⊢
    simp only [List.filterMap_append, htx]
    simp [headerOps, statsHeadOps, sumHeadOps, funFactOps]
  · unfold drawStrsOf at hds ⊢
    simp only [List.filterMap_append, hds]
    simp [headerOps, statsHeadOps, sumHeadOps, funFactOps]
  · unfold dykYOf
    simp only [List.filterMap_append, dyk_filter_nil bops hds]
    simp [headerOps, statsHeadOps, sumHeadOps, funFactOps, dykEntryOf]

/-! ## Claim theorems -/

/-- C1: for every summary string the renderer's word-wrap emits exactly the
lines of the spec's procedure (split on whitespace; append each word to a
buffer; flush whenever the space-joined buffer length exceeds the threshold
of 80; flush the remaining buffer as the final line), and for
"A B C D E F" with a small threshold each break occurs where appending a
word first made the joined length exceed the threshold. -/
theorem c1_wrap_matches_spec :
    (∀ (data : List (String × PyVal)) (fn sumS : String) (xs : List PyVal),
        dictGet data "stats" (.list []) = .list xs →
        (∀ x ∈ xs.take 3, ∃ kvs, x = PyVal.dict kvs) →
        dictGet data "summary" (.str "No summary available.") = .str sumS →
        linesDrawn (create_infographic_pdf data fn) = some (wrapSpec 80 sumS)) ∧
    wrapSpec 5 "A B C D E F" = ["A B C D", "E F"] := by
  constructor
  · intro data fn sumS xs hstats hdict hsum
    obtain ⟨ops, hc, _, _, htx, _, _⟩ := create_ok data fn xs sumS hstats hdict hsum
    rw [hc]
    show (textsOf ops).head? = some (wrapSpec 80 sumS)
    rw [htx]
    rw [show wrapGo 80 (pySplit sumS) [] = wrapSummary 80 sumS from rfl,
      wrapSummary_eq_wrapSpec]
    rfl
  · decide

/-- Witness for C1 at a concrete record: the summary "Marsquakes occur" is
drawn exactly as the spec procedure wraps it. -/
theorem c1_witness :
    linesDrawn (create_infographic_pdf [("summary", PyVal.str "Marsquakes occur")] "out.pdf")
      = some (wrapSpec 80 "Marsquakes occur") :=
  c1_wrap_matches_spec.1 [("summary", PyVal.str "Marsquakes occur")] "out.pdf"
    "Marsquakes occur" [] rfl (fun x hx => absurd hx (List.not_mem_nil x)) rfl

/-- C2: for every record whose stats field is a (possibly missing) sequence
of label/value entries, the renderer draws exactly `min 3 (number of stats)`
stat boxes, all of the fixed size, at slots determined by the index alone,
in input order, each value centred above its label at the slot's centre. -/
theorem c2_stat_boxes :
    ∀ (data : List (String × PyVal)) (fn : String) (xs : List PyVal) (sumS : String),
      dictGet data "stats" (.list []) = .list xs →
      (∀ x ∈ xs.take 3, ∃ kvs, x = PyVal.dict kvs) →
      dictGet data "summary" (.str "No summary available.") = .str sumS →
      ∃ ops, create_infographic_pdf data fn = .ok (ops, fn) ∧
        (rrOf ops).length = min 3 xs.length ∧
        rrOf ops = (List.range' 0 (min 3 xs.length)).map
          (fun j => (slotX j, boxY, boxW, 6/5 * inchQ, (10 : ℚ))) ∧
        centredOf ops =
          (A4w / 2, A4h - inchQ,
            "Infographic: " ++ pyStr (dictGet data "topic" (.str "Unknown Topic"))) ::
          (((List.range' 0 (min 3 xs.length)).zip (xs.take 3)).map (fun p =>
            [(slotX p.1 + boxW / 2, boxY + 7/10 * inchQ, pyStr (pyGet p.2 "value" (.str ""))),
             (slotX p.1 + boxW / 2, boxY + 2/5 * inchQ, pyStr (pyGet p.2 "label" (.str "")))])).flatten := by
  intro data fn xs sumS hstats hdict hsum
  obtain ⟨ops, hc, hrr, hcen, _, _, _⟩ := create_ok data fn xs sumS hstats hdict hsum
  exact ⟨ops, hc, by rw [hrr]; simp, hrr, hcen⟩

/-- Witness for C2: a record with four stats (the fourth ignored), one of
them with a numeric value, draws exactly three boxes at the fixed slots. -/
theorem c2_witness :
    ∃ ops, create_infographic_pdf
        [("stats", PyVal.list
            [PyVal.dict [("label", PyVal.str "A"), ("value", PyVal.str "1")],
             PyVal.dict [("label", PyVal.str "B"), ("value", PyVal.int 2)],
             PyVal.dict [("label", PyVal.str "C"), ("value", PyVal.str "3")],
             PyVal.dict [("label", PyVal.str "D"), ("value", PyVal.str "4")]]),
         ("summary", PyVal.str "ok")] "out.pdf" = .ok (ops, "out.pdf") ∧
      (rrOf ops).length = min 3 4 ∧
      rrOf ops = (List.range' 0 (min 3 4)).map
        (fun j => (slotX j, boxY, boxW, 6/5 * inchQ, (10 : ℚ))) ∧
      centredOf ops =
        (A4w / 2, A4h - inchQ, "Infographic: Unknown Topic") ::
        (((List.range' 0 (min 3 4)).zip
            ([PyVal.dict [("label", PyVal.str "A"), ("value", PyVal.str "1")],
              PyVal.dict [("label", PyVal.str "B"), ("value", PyVal.int 2)],
              PyVal.dict [("label", PyVal.str "C"), ("value", PyVal.str "3")],
              PyVal.dict [("label", PyVal.str "D"), ("value", PyVal.str "4")]].take 3)).map (fun p =>
          [(slotX p.1 + boxW / 2, boxY + 7/10 * inchQ, pyStr (pyGet p.2 "value" (.str ""))),
           (slotX p.1 + boxW / 2, boxY + 2/5 * inchQ, pyStr (pyGet p.2 "label" (.str "")))])).flatten := by
  obtain ⟨ops, h1, h2, h3, h4⟩ := c2_stat_boxes
    [("stats", PyVal.list
        [PyVal.dict [("label", PyVal.str "A"), ("value", PyVal.str "1")],
         PyVal.dict [("label", PyVal.str "B"), ("value", PyVal.int 2)],
         PyVal.dict [("label", PyVal.str "C"), ("value", PyVal.str "3")],
         PyVal.dict [("label", PyVal.str "D"), ("value", PyVal.str "4")]]),
     ("summary", PyVal.str "ok")] "out.pdf" _ "ok" rfl
    (by
      intro x hx
      simp only [List.take, List.mem_cons, List.not_mem_nil, or_false] at hx
      rcases hx with rfl | rfl | rfl
      · exact ⟨_, rfl⟩
      · exact ⟨_, rfl⟩
      · exact ⟨_, rfl⟩) rfl
  exact ⟨ops, h1, h2, h3, by rw [h4]; rfl⟩

/-- C3 counterexample: a record whose summary field holds the integer 0 makes
the renderer raise `AttributeError` on `summary_text.split()` — the record's
contents alone cause a failure, contradicting the claim that all data-driven
text values are coerced to string form before drawing. -/
theorem c3_counterexample :
    create_infographic_pdf [("summary", PyVal.int 0)] "infographic.pdf"
      = .error (noAttr (PyVal.int 0) "split") := rfl

/-- C3 (amended): all data-driven text values except the summary (and the
stats container shape) are coerced to string form, so the renderer completes
for arbitrary topic, fun-fact and stat label/value types — provided the
summary field (if present) is a string and the stats field (if present) is a
sequence whose first three entries are label/value records; a non-string
summary (or a malformed stats container) raises. -/
theorem c3_amended :
    ∀ (data : List (String × PyVal)) (fn : String),
      (∃ sumS, dictGet data "summary" (.str "No summary available.") = .str sumS) →
      (∃ xs, dictGet data "stats" (.list []) = .list xs ∧
         ∀ x ∈ xs.take 3, ∃ kvs, x = PyVal.dict kvs) →
      ∃ ops, create_infographic_pdf data fn = .ok (ops, fn) := by
  intro data fn hs hx
  obtain ⟨sumS, hsum⟩ := hs
  obtain ⟨xs, hstats, hdict⟩ := hx
  obtain ⟨ops, hc, _⟩ := create_ok data fn xs sumS hstats hdict hsum
  exact ⟨ops, hc⟩

/-- Witness for C3 (amended): a record whose topic is an integer, whose
fun fact is a list and whose stat label/value are a boolean and None still
renders successfully — those values are coerced to strings. -/
theorem c3_witness :
    ∃ ops, create_infographic_pdf
        [("topic", PyVal.int 42), ("summary", PyVal.str "s"),
         ("stats", PyVal.list [PyVal.dict [("label", PyVal.bool true), ("value", PyVal.none)]]),
         ("fun_fact", PyVal.list [PyVal.int 1])] "out.pdf" = .ok (ops, "out.pdf") :=
  c3_amended
    [("topic", PyVal.int 42), ("summary", PyVal.str "s"),
     ("stats", PyVal.list [PyVal.dict [("label", PyVal.bool true), ("value", PyVal.none)]]),
     ("fun_fact", PyVal.list [PyVal.int 1])] "out.pdf"
    ⟨"s", rfl⟩
    ⟨[PyVal.dict [("label", PyVal.bool true), ("value", PyVal.none)]], rfl,
      fun x hx => ⟨[("label", PyVal.bool true), ("value", PyVal.none)], by simpa using hx⟩⟩

/-- C5: a record with missing or empty fields still renders to a document:
a missing topic draws the fixed placeholder title, a missing summary the
fixed placeholder line, a missing fun fact an empty bullet, and missing
stats no boxes; no combination of absent fields crashes. -/
theorem c5_missing_fields :
    ∀ (data : List (String × PyVal)) (fn : String),
      (findVal data "summary" = Option.none ∨
        ∃ s, findVal data "summary" = some (.str s)) →
      (findVal data "stats" = Option.none ∨
        ∃ xs, findVal data "stats" = some (.list xs) ∧
          ∀ x ∈ xs.take 3, ∃ kvs, x = PyVal.dict kvs) →
      ∃ ops, create_infographic_pdf data fn = .ok (ops, fn) ∧
        (findVal data "topic" = Option.none →
          (centredOf ops).head? = some (A4w / 2, A4h - inchQ, "Infographic: Unknown Topic")) ∧
        (findVal data "summary" = Option.none →
          textsOf ops = [["No summary available."]]) ∧
        (findVal data "fun_fact" = Option.none →
          drawStrsOf ops = ["Key Statistics", "Executive Summary", "Did You Know?", "• "]) ∧
        (findVal data "stats" = Option.none → rrOf ops = []) := by
  intro data fn hs hst
  obtain ⟨sumS, hsum, hsumNone⟩ :
      ∃ sumS, dictGet data "summary" (.str "No summary available.") = .str sumS ∧
        (findVal data "summary" = Option.none → sumS = "No summary available.") := by
    rcases hs with h | ⟨s, h⟩
    · exact ⟨"No summary available.", by simp [dictGet, h], fun _ => rfl⟩
    · refine ⟨s, by simp [dictGet, h], fun hn => ?_⟩
      rw [hn] at h
      cases h
  obtain ⟨xs, hstats, hxsNone, hdict⟩ :
      ∃ xs, dictGet data "stats" (.list []) = .list xs ∧
        (findVal data "stats" = Option.none → xs = []) ∧
        (∀ x ∈ xs.take 3, ∃ kvs, x = PyVal.dict kvs) := by
    rcases hst with h | ⟨xs, h, hd⟩
    · exact ⟨[], by simp [dictGet, h], fun _ => rfl, by simp⟩
    · refine ⟨xs, by simp [dictGet, h], fun hn => ?_, hd⟩
      rw [hn] at h
      cases h
  obtain ⟨ops, hc, hrr, hcen, htx, hds, _⟩ := create_ok data fn xs sumS hstats hdict hsum
  refine ⟨ops, hc, ?_, ?_, ?_, ?_⟩
  · intro ht
    rw [hcen]
    have hdg : dictGet data "topic" (.str "Unknown Topic") = .str "Unknown Topic" := by
      simp [dictGet, ht]
    rw [hdg]
    rfl
  · intro hn
    rw [htx, hsumNone hn]
    decide
  · intro hn
    rw [hds]
    have hdg : dictGet data "fun_fact" (.str "") = .str "" := by
      simp [dictGet, hn]
    rw [hdg]
    rfl
  · intro hn
    rw [hrr, hxsNone hn]
    rfl

/-- Witness for C5: the record with every field present but empty renders
successfully, and the fully absent record satisfies every conditional. -/
theorem c5_witness :
    ∃ ops, create_infographic_pdf ([] : List (String × PyVal)) "infographic.pdf"
        = .ok (ops, "infographic.pdf") ∧
      (findVal [] "topic" = Option.none →
        (centredOf ops).head? = some (A4w / 2, A4h - inchQ, "Infographic: Unknown Topic")) ∧
      (findVal [] "summary" = Option.none →
        textsOf ops = [["No summary available."]]) ∧
      (findVal [] "fun_fact" = Option.none →
        drawStrsOf ops = ["Key Statistics", "Executive Summary", "Did You Know?", "• "]) ∧
      (findVal [] "stats" = Option.none → rrOf ops = []) :=
  c5_missing_fields [] "infographic.pdf" (Or.inl rfl) (Or.inl rfl)

/-- C6: the word-wrap is idempotent on re-wrap — wrapping the rejoined lines
of a wrapped summary with the same threshold of 80 reproduces exactly the
same lines. -/
theorem c6_wrap_idempotent :
    ∀ s : String, wrapSummary 80 (rejoinNl (wrapSummary 80 s)) = wrapSummary 80 s := by
  intro s
  have hre : pySplit (rejoinNl (wrapSummary 80 s)) = pySplit s := by
    rw [wrapSummary, wrapGo_eq_groups]
    exact pySplit_rejoin (pySplit s) (pySplit_good s) _ (by rw [wrapGroups_join]; simp)
  conv_lhs => rw [wrapSummary]
  rw [hre, wrapSummary]

/-- C7: whenever the extracted upstream text fails to parse as JSON, exactly
one error is reported (plus the fixed hint), no artifact is produced, and no
partial results are displayed — no field of the record is shown. -/
theorem c7_parse_failure :
    ∀ (apiKey topic crewOutput : String) (parse : String → Except String PyVal) (e : String),
      apiKey ≠ "" → topic ≠ "" →
      parse (cleanJson (pyStrip crewOutput)) = .error e →
      mainRun apiKey topic crewOutput parse =
        ⟨true, [.errorMsg ("Error: " ++ e), .warnMsg hintMsg], Option.none⟩ ∧
      (mainRun apiKey topic crewOutput parse).artifact = Option.none ∧
      ((mainRun apiKey topic crewOutput parse).events.countP
        (fun ev => match ev with | .errorMsg _ => true | _ => false)) = 1 := by
  intro apiKey topic crewOutput parse e h1 h2 hp
  have hm : mainRun apiKey topic crewOutput parse =
      ⟨true, [.errorMsg ("Error: " ++ e), .warnMsg hintMsg], Option.none⟩ := by
    unfold mainRun
    rw [if_neg h1, if_neg h2]
    simp [hp]
  refine ⟨hm, by rw [hm], by rw [hm]; rfl⟩

/-- Witness for C7: a non-JSON upstream text with no fences yields exactly
the single error event, plus the hint, and no artifact. -/
theorem c7_witness :
    mainRun "key" "SpaceX" "no json here"
        (fun _ => .error "Expecting value: line 1 column 1 (char 0)") =
      ⟨true, [.errorMsg "Error: Expecting value: line 1 column 1 (char 0)", .warnMsg hintMsg],
        Option.none⟩ ∧
    (mainRun "key" "SpaceX" "no json here"
        (fun _ => .error "Expecting value: line 1 column 1 (char 0)")).artifact = Option.none ∧
    ((mainRun "key" "SpaceX" "no json here"
        (fun _ => .error "Expecting value: line 1 column 1 (char 0)")).events.countP
      (fun ev => match ev with | .errorMsg _ => true | _ => false)) = 1 :=
  c7_parse_failure "key" "SpaceX" "no json here"
    (fun _ => .error "Expecting value: line 1 column 1 (char 0)")
    "Expecting value: line 1 column 1 (char 0)" (by decide) (by decide) rfl

/-- C8: the renderer is deterministic — two runs on an identical record and
output path yield the identical operation sequence and result, and a
successful run returns exactly the given output path. -/
theorem c8_deterministic :
    ∀ (data : List (String × PyVal)) (fn : String)
      (r₁ r₂ : Except PyErr (List DrawOp × String)),
      r₁ = create_infographic_pdf data fn → r₂ = create_infographic_pdf data fn →
      r₁ = r₂ ∧ ∀ ops p, r₁ = .ok (ops, p) → p = fn := by
  intro data fn r₁ r₂ h1 h2
  subst h1
  subst h2
  refine ⟨rfl, ?_⟩
  intro ops p hok
  unfold create_infographic_pdf at hok
  split at hok
  · cases hok
  · split at hok
    · cases hok
    · split at hok
      · cases hok
      · simp only [Except.ok.injEq, Prod.mk.injEq] at hok
        exact hok.2.symm

/-- Witness for C8 at a concrete record and path. -/
theorem c8_witness :
    create_infographic_pdf [("topic", PyVal.str "Bitcoin")] "out.pdf"
        = create_infographic_pdf [("topic", PyVal.str "Bitcoin")] "out.pdf" ∧
      ∀ ops p, create_infographic_pdf [("topic", PyVal.str "Bitcoin")] "out.pdf"
          = .ok (ops, p) → p = "out.pdf" :=
  c8_deterministic [("topic", PyVal.str "Bitcoin")] "out.pdf" _ _ rfl rfl

/-- C9: an empty credential is reported as an error before any work — no
crew call, no parsing, no artifact; with a credential but an empty topic a
warning is reported, again before any work; the credential check takes
precedence. -/
theorem c9_precheck :
    ∀ (apiKey topic crewOutput : String) (parse : String → Except String PyVal),
      (apiKey = "" → mainRun apiKey topic crewOutput parse =
        ⟨false, [.errorMsg "Please enter your API Key."], Option.none⟩) ∧
      (apiKey ≠ "" → topic = "" → mainRun apiKey topic crewOutput parse =
        ⟨false, [.warnMsg "Please enter a topic."], Option.none⟩) := by
  intro apiKey topic crewOutput parse
  constructor
  · intro h
    unfold mainRun
    rw [if_pos h]
  · intro h1 h2
    unfold mainRun
    rw [if_neg h1, if_pos h2]

/-- Witness for C9: both pre-checks at concrete inputs (empty key with a
non-empty topic; non-empty key with empty topic). -/
theorem c9_witness :
    mainRun "" "Bitcoin" "x" (fun _ => .error "e") =
      ⟨false, [.errorMsg "Please enter your API Key."], Option.none⟩ ∧
    mainRun "key" "" "x" (fun _ => .error "e") =
      ⟨false, [.warnMsg "Please enter a topic."], Option.none⟩ :=
  ⟨(c9_precheck "" "Bitcoin" "x" (fun _ => .error "e")).1 rfl,
   (c9_precheck "key" "" "x" (fun _ => .error "e")).2 (by decide) rfl⟩

/-- C10 counterexample: for the record with a missing summary the renderer
emits exactly one line, but that line is the placeholder
"No summary available.", not an empty line as claimed. -/
theorem c10_counterexample :
    linesDrawn (create_infographic_pdf [] "infographic.pdf")
      = some ["No summary available."] ∧
    ("No summary available." : String) ≠ "" := by
  exact ⟨rfl, by decide⟩

/-- C10 (amended): the final flush is unconditional, so at least one summary
line is always emitted; an empty summary yields exactly one empty line while
a missing summary yields exactly one line holding the placeholder text; and
when the last word itself triggers a mid-loop flush an additional empty
trailing line follows it, moving the "Did You Know?" heading down by one
line height (the leading of 14) per emitted line. -/
theorem c10_amended :
    (∀ (t : ℕ) (ws : List String), 1 ≤ (wrapGo t ws []).length) ∧
    (∀ n : ℕ, dykY (n + 1) = dykY n - 14) ∧
    (∀ (data : List (String × PyVal)) (fn : String) (xs : List PyVal),
      dictGet data "stats" (.list []) = .list xs →
      (∀ x ∈ xs.take 3, ∃ kvs, x = PyVal.dict kvs) →
      (findVal data "summary" = Option.none →
        linesDrawn (create_infographic_pdf data fn) = some ["No summary available."]) ∧
      (findVal data "summary" = some (.str "") →
        linesDrawn (create_infographic_pdf data fn) = some [""]) ∧
      (∀ s, findVal data "summary" = some (.str s) →
        pySplit s ≠ [] → finalBuf 80 (pySplit s) [] = [] →
        ∃ L ops, create_infographic_pdf data fn = .ok (ops, fn) ∧
          textsOf ops = [L ++ [""]] ∧ 2 ≤ (L ++ [""]).length ∧
          dykYOf ops = some (dykY (L.length + 1)))) := by
  refine ⟨fun t ws => wrapGo_length_pos t ws [], ?_, ?_⟩
  · intro n
    unfold dykY
    push_cast
    ring
  · intro data fn xs hstats hdict
    refine ⟨?_, ?_, ?_⟩
    · intro hn
      have hsum : dictGet data "summary" (.str "No summary available.")
          = .str "No summary available." := by simp [dictGet, hn]
      obtain ⟨ops, hc, _, _, htx, _, _⟩ := create_ok data fn xs _ hstats hdict hsum
      rw [hc]
      show (textsOf ops).head? = some ["No summary available."]
      rw [htx]
      decide
    · intro hn
      have hsum : dictGet data "summary" (.str "No summary available.")
          = .str "" := by simp [dictGet, hn]
      obtain ⟨ops, hc, _, _, htx, _, _⟩ := create_ok data fn xs _ hstats hdict hsum
      rw [hc]
      show (textsOf ops).head? = some [""]
      rw [htx]
      decide
    · intro s hn hne hfb
      have hsum : dictGet data "summary" (.str "No summary available.")
          = .str s := by simp [dictGet, hn]
      obtain ⟨ops, hc, _, _, htx, _, hdyk⟩ := create_ok data fn xs _ hstats hdict hsum
      obtain ⟨L, hL⟩ := wrapGo_finalBuf 80 (pySplit s) []
      rw [hfb, joinSpace_nil] at hL
      have hlen : 2 ≤ (L ++ [""]).length := by
        rw [← hL]
        exact wrapGo_two_of_finalBuf_nil 80 (pySplit s) [] hne hfb
      refine ⟨L, ops, hc, by rw [htx, hL], hlen, ?_⟩
      rw [hdyk, hL]
      simp

/-! ## Lemmas about `splitFuel` (Python `str.split(sep)`) -/

/-- The backtick character. -/
def btChar : Char := '\x60'

theorem splitFuel_ne_nil (sep : List Char) :
    ∀ (f : ℕ) (s cur : List Char), splitFuel sep f s cur ≠ [] := by
  intro f
  induction f with
  | zero => intro s cur; simp [splitFuel]
  | succ f ih =>
    intro s cur
    cases s with
    | nil => simp [splitFuel]
    | cons c cs =>
      simp only [splitFuel]
      split
      · simp
      · exact ih cs (cur ++ [c])

theorem splitFuel_fuel_invariant (sep : List Char) :
    ∀ (f₁ : ℕ), ∀ (f₂ : ℕ) (s cur : List Char), s.length ≤ f₁ → s.length ≤ f₂ →
      splitFuel sep f₁ s cur = splitFuel sep f₂ s cur := by
  intro f₁
  induction f₁ with
  | zero =>
    intro f₂ s cur h1 _
    have hs : s = [] := List.eq_nil_of_length_eq_zero (Nat.le_zero.mp h1)
    subst hs
    cases f₂ <;> simp [splitFuel]
  | succ f ih =>
    intro f₂ s cur h1 h2
    cases s with
    | nil => cases f₂ <;> simp [splitFuel]
    | cons c cs =>
      cases f₂ with
      | zero => simp at h2
      | succ f₂ =>
        simp only [splitFuel]
        split
        · have hlen : (cs.drop (sep.length - 1)).length ≤ f ∧
              (cs.drop (sep.length - 1)).length ≤ f₂ := by
            simp only [List.length_cons] at h1 h2
            have := List.length_drop (sep.length - 1) cs
            omega
          rw [ih f₂ _ [] hlen.1 hlen.2]
        · have hlen : cs.length ≤ f ∧ cs.length ≤ f₂ := by
            simp only [List.length_cons] at h1 h2
            omega
          rw [ih f₂ cs (cur ++ [c]) hlen.1 hlen.2]

theorem splitFuel_pass (sep : List Char) (A : List Char) :
    ∀ (rest cur : List Char) (f : ℕ),
      (∀ i, i < A.length → leadsWith sep (A.drop i ++ rest) = false) →
      splitFuel sep (A.length + f) (A ++ rest) cur = splitFuel sep f rest (cur ++ A) := by
  induction A with
  | nil => intro rest cur f _; simp
  | cons a A ih =>
    intro rest cur f h
    have h0 : leadsWith sep (a :: (A ++ rest)) = false := by
      have := h 0 (by simp)
      simpa using this
    have harith : (a :: A).length + f = (A.length + f) + 1 := by
      simp [List.length_cons]
      omega
    rw [harith]
    simp only [List.cons_append, splitFuel, List.append_eq, h0, Bool.false_eq_true, if_false]
    rw [ih rest (cur ++ [a]) f (fun i hi => by
      have := h (i + 1) (by simp; omega)
      simpa using this)]
    simp

theorem leadsWith_prefix_append (P : List Char) :
    ∀ (Q s : List Char), leadsWith (P ++ Q) (P ++ s) = leadsWith Q s := by
  induction P with
  | nil => intro Q s; rfl
  | cons p P ih =>
    intro Q s
    simp only [List.cons_append, leadsWith, List.append_eq]
    rw [ih]
    simp

theorem splitFuel_match (c0 : Char) (sep' : List Char) :
    ∀ (rest cur : List Char) (f : ℕ),
      splitFuel (c0 :: sep') (sep'.length + 1 + f) ((c0 :: sep') ++ rest) cur
        = cur :: splitFuel (c0 :: sep') (sep'.length + f) rest [] := by
  intro rest cur f
  have hlead : leadsWith (c0 :: sep') ((c0 :: sep') ++ rest) = true := by
    have := leadsWith_prefix_append (c0 :: sep') [] rest
    simpa using this
  have harith : sep'.length + 1 + f = (sep'.length + f) + 1 := by omega
  rw [harith]
  simp only [List.cons_append, List.append_eq, splitFuel]
  rw [show leadsWith (c0 :: sep') (c0 :: (sep' ++ rest)) = true from hlead]
  simp only [if_true, List.length_cons, Nat.add_sub_cancel]
  rw [List.drop_left]

/-- The characters of the json-tagged fence marker. -/
def sepJchars : List Char := jsonFenceMark.data

/-- The characters of the plain fence marker. -/
def sepFchars : List Char := fenceMark.data

theorem sepJchars_eq :
    sepJchars = btChar :: btChar :: btChar :: 'j' :: 's' :: 'o' :: 'n' :: [] := by decide

theorem sepFchars_eq : sepFchars = btChar :: btChar :: btChar :: [] := by decide

theorem leadsWith_bt_cons_false (P : List Char) (C : List Char)
    (hC : ∀ c ∈ C, c ≠ btChar) : leadsWith (btChar :: P) C = false := by
  cases C with
  | nil => rfl
  | cons c cs =>
    have hne : c ≠ btChar := hC c (List.mem_cons_self c cs)
    have hd : (decide (btChar = c)) = false := decide_eq_false (fun h => hne h.symm)
    simp [leadsWith, hd]

theorem noMatch_btfree (sep' : List Char) (A : List Char)
    (hA : ∀ c ∈ A, c ≠ btChar) (rest : List Char) :
    ∀ i, i < A.length → leadsWith (btChar :: sep') (A.drop i ++ rest) = false := by
  intro i hi
  rw [List.drop_eq_getElem_cons hi]
  simp only [List.cons_append]
  have hne : A[i] ≠ btChar := hA _ (List.getElem_mem hi)
  have hd : (decide (btChar = A[i])) = false := decide_eq_false (fun h => hne h.symm)
  simp [leadsWith, hd]

theorem noMatchJ_tail (C : List Char) (hC : ∀ c ∈ C, c ≠ btChar)
    (hCj : leadsWith ('j' :: 's' :: 'o' :: 'n' :: []) C = false) :
    ∀ i, i < (btChar :: btChar :: btChar :: C).length →
      leadsWith sepJchars ((btChar :: btChar :: btChar :: C).drop i ++ []) = false := by
  intro i _
  rw [sepJchars_eq]
  simp only [List.append_nil]
  match i with
  | 0 =>
    simp only [List.drop_zero, leadsWith, decide_True, Bool.true_and]
    exact hCj
  | 1 =>
    simp only [List.drop_succ_cons, List.drop_zero, leadsWith, decide_True, Bool.true_and]
    exact leadsWith_bt_cons_false _ C hC
  | 2 =>
    simp only [List.drop_succ_cons, List.drop_zero, leadsWith, decide_True, Bool.true_and]
    exact leadsWith_bt_cons_false _ C hC
  | (n + 3) =>
    simp only [List.drop_succ_cons]
    exact leadsWith_bt_cons_false _ _ (fun c hc => hC c (List.drop_subset n C hc))

theorem splitJ_structure (A B C : List Char)
    (hA : ∀ c ∈ A, c ≠ btChar) (hB : ∀ c ∈ B, c ≠ btChar)
    (hC : ∀ c ∈ C, c ≠ btChar)
    (hCj : leadsWith ('j' :: 's' :: 'o' :: 'n' :: []) C = false) :
    splitFuel sepJchars (A ++ (sepJchars ++ (B ++ (sepFchars ++ C)))).length
        (A ++ (sepJchars ++ (B ++ (sepFchars ++ C)))) []
      = [A, B ++ (sepFchars ++ C)] := by
  rw [sepJchars_eq, sepFchars_eq]
  rw [show (A ++ ((btChar :: btChar :: btChar :: 'j' :: 's' :: 'o' :: 'n' :: []) ++
        (B ++ ((btChar :: btChar :: btChar :: []) ++ C)))).length
      = A.length + ((btChar :: btChar :: btChar :: 'j' :: 's' :: 'o' :: 'n' :: []) ++
        (B ++ ((btChar :: btChar :: btChar :: []) ++ C))).length from by simp]
  rw [splitFuel_pass _ A _ _ _ (noMatch_btfree _ A hA _)]
  simp only [List.nil_append]
  rw [show ((btChar :: btChar :: btChar :: 'j' :: 's' :: 'o' :: 'n' :: []) ++
        (B ++ ((btChar :: btChar :: btChar :: []) ++ C))).length
      = (btChar :: btChar :: 'j' :: 's' :: 'o' :: 'n' :: ([] : List Char)).length + 1 +
        (B ++ ((btChar :: btChar :: btChar :: []) ++ C)).length from by
    simp
    omega]
  rw [splitFuel_match]
  rw [show (btChar :: btChar :: 'j' :: 's' :: 'o' :: 'n' :: ([] : List Char)).length +
        (B ++ ((btChar :: btChar :: btChar :: []) ++ C)).length
      = B.length + (6 + ((btChar :: btChar :: btChar :: []) ++ C).length) from by
    simp
    omega]
  rw [splitFuel_pass _ B _ _ _ (noMatch_btfree _ B hB _)]
  simp only [List.nil_append]
  rw [show (6 : ℕ) + ((btChar :: btChar :: btChar :: []) ++ C).length
      = ((btChar :: btChar :: btChar :: []) ++ C).length + 6 from by omega]
  rw [show splitFuel (btChar :: btChar :: btChar :: 'j' :: 's' :: 'o' :: 'n' :: [])
        (((btChar :: btChar :: btChar :: []) ++ C).length + 6)
        ((btChar :: btChar :: btChar :: []) ++ C) B
      = splitFuel (btChar :: btChar :: btChar :: 'j' :: 's' :: 'o' :: 'n' :: [])
        (((btChar :: btChar :: btChar :: []) ++ C).length + 6)
        (((btChar :: btChar :: btChar :: []) ++ C) ++ []) B from by
    rw [List.append_nil]]
  rw [splitFuel_pass _ _ _ _ _
    (by simpa [sepJchars_eq] using noMatchJ_tail C hC hCj)]
  simp [splitFuel]

theorem splitF_double (A B tail : List Char)
    (hA : ∀ c ∈ A, c ≠ btChar) (hB : ∀ c ∈ B, c ≠ btChar) :
    ∃ L, splitFuel sepFchars (A ++ (sepFchars ++ (B ++ (sepFchars ++ tail)))).length
        (A ++ (sepFchars ++ (B ++ (sepFchars ++ tail)))) []
      = A :: B :: L := by
  rw [sepFchars_eq]
  rw [show (A ++ ((btChar :: btChar :: btChar :: []) ++
        (B ++ ((btChar :: btChar :: btChar :: []) ++ tail)))).length
      = A.length + ((btChar :: btChar :: btChar :: []) ++
        (B ++ ((btChar :: btChar :: btChar :: []) ++ tail))).length from by simp]
  rw [splitFuel_pass _ A _ _ _ (noMatch_btfree _ A hA _)]
  simp only [List.nil_append]
  rw [show ((btChar :: btChar :: btChar :: []) ++
        (B ++ ((btChar :: btChar :: btChar :: []) ++ tail))).length
      = (btChar :: btChar :: ([] : List Char)).length + 1 +
        (B ++ ((btChar :: btChar :: btChar :: []) ++ tail)).length from by
    simp
    omega]
  rw [splitFuel_match]
  rw [show (btChar :: btChar :: ([] : List Char)).length +
        (B ++ ((btChar :: btChar :: btChar :: []) ++ tail)).length
      = B.length + ((btChar :: btChar :: ([] : List Char)).length + 1 + (2 + tail.length)) from by
    simp
    omega]
  rw [splitFuel_pass _ B _ _ _ (noMatch_btfree _ B hB _)]
  simp only [List.nil_append]
  rw [splitFuel_match]
  exact ⟨_, rfl⟩

theorem splitF_single (B : List Char) (hB : ∀ c ∈ B, c ≠ btChar) :
    splitFuel sepFchars B.length B [] = [B] := by
  rw [show B.length = B.length + 0 from by omega]
  rw [show splitFuel sepFchars (B.length + 0) B []
      = splitFuel sepFchars (B.length + 0) (B ++ []) [] from by rw [List.append_nil]]
  rw [splitFuel_pass sepFchars B _ _ _
    (by
      rw [sepFchars_eq]
      exact noMatch_btfree _ B hB _)]
  simp [splitFuel]

theorem splitF_first (B tail : List Char) (hB : ∀ c ∈ B, c ≠ btChar) :
    ∃ L, splitFuel sepFchars (B ++ (sepFchars ++ tail)).length (B ++ (sepFchars ++ tail)) []
      = B :: L := by
  rw [sepFchars_eq]
  rw [show (B ++ ((btChar :: btChar :: btChar :: []) ++ tail)).length
      = B.length + ((btChar :: btChar :: btChar :: []) ++ tail).length from by simp]
  rw [splitFuel_pass _ B _ _ _ (noMatch_btfree _ B hB _)]
  simp only [List.nil_append]
  rw [show ((btChar :: btChar :: btChar :: []) ++ tail).length
      = (btChar :: btChar :: ([] : List Char)).length + 1 + tail.length from by
    simp
    omega]
  rw [splitFuel_match]
  exact ⟨_, rfl⟩

theorem cleanJson_json_fence (A B C : String)
    (hA : ∀ c ∈ A.data, c ≠ btChar) (hB : ∀ c ∈ B.data, c ≠ btChar)
    (hC : ∀ c ∈ C.data, c ≠ btChar)
    (hCj : leadsWith ('j' :: 's' :: 'o' :: 'n' :: []) C.data = false) :
    cleanJson (A ++ jsonFenceMark ++ B ++ fenceMark ++ C) = B := by
  have hdata : (A ++ jsonFenceMark ++ B ++ fenceMark ++ C).data
      = A.data ++ (sepJchars ++ (B.data ++ (sepFchars ++ C.data))) := by
    simp [sepJchars, sepFchars, List.append_assoc]
  have hsplit1 : pySplitOn (A ++ jsonFenceMark ++ B ++ fenceMark ++ C) jsonFenceMark
      = [String.mk A.data, String.mk (B.data ++ (sepFchars ++ C.data))] := by
    unfold pySplitOn
    rw [show jsonFenceMark.data = sepJchars from rfl]
    rw [hdata, splitJ_structure A.data B.data C.data hA hB hC hCj]
    rfl
  have hcont : pyContains (A ++ jsonFenceMark ++ B ++ fenceMark ++ C) jsonFenceMark = true := by
    unfold pyContains
    rw [hsplit1]
    rfl
  have hS1 : (pySplitOn (A ++ jsonFenceMark ++ B ++ fenceMark ++ C) jsonFenceMark).getD 1 ""
      = String.mk (B.data ++ (sepFchars ++ C.data)) := by
    rw [hsplit1]
    rfl
  obtain ⟨L, hsf⟩ := splitF_first B.data C.data hB
  have hsplit2 : pySplitOn (String.mk (B.data ++ (sepFchars ++ C.data))) fenceMark
      = String.mk B.data :: L.map (fun w => String.mk w) := by
    unfold pySplitOn
    rw [show fenceMark.data = sepFchars from rfl]
    rw [show (String.mk (B.data ++ (sepFchars ++ C.data))).data
        = B.data ++ (sepFchars ++ C.data) from rfl]
    rw [hsf]
    rfl
  unfold cleanJson
  rw [hcont]
  simp only [if_true]
  rw [hS1, hsplit2]
  rfl

theorem cleanJson_plain_fence (A B C : String)
    (hA : ∀ c ∈ A.data, c ≠ btChar) (hB : ∀ c ∈ B.data, c ≠ btChar)
    (hJ : pyContains (A ++ fenceMark ++ B ++ fenceMark ++ C) jsonFenceMark = false) :
    cleanJson (A ++ fenceMark ++ B ++ fenceMark ++ C) = B := by
  have hdata : (A ++ fenceMark ++ B ++ fenceMark ++ C).data
      = A.data ++ (sepFchars ++ (B.data ++ (sepFchars ++ C.data))) := by
    simp [sepFchars, List.append_assoc]
  obtain ⟨L, hsf⟩ := splitF_double A.data B.data C.data hA hB
  have hsplit1 : pySplitOn (A ++ fenceMark ++ B ++ fenceMark ++ C) fenceMark
      = String.mk A.data :: String.mk B.data :: L.map (fun w => String.mk w) := by
    unfold pySplitOn
    rw [show fenceMark.data = sepFchars from rfl]
    rw [hdata, hsf]
    rfl
  have hcont : pyContains (A ++ fenceMark ++ B ++ fenceMark ++ C) fenceMark = true := by
    unfold pyContains
    rw [hsplit1]
    simp
  have hS1 : (pySplitOn (A ++ fenceMark ++ B ++ fenceMark ++ C) fenceMark).getD 1 ""
      = String.mk B.data := by
    rw [hsplit1]
    rfl
  have hsingle : pySplitOn (String.mk B.data) fenceMark = [String.mk B.data] := by
    unfold pySplitOn
    rw [show fenceMark.data = sepFchars from rfl]
    rw [show (String.mk B.data).data = B.data from rfl]
    rw [splitF_single B.data hB]
    rfl
  unfold cleanJson
  rw [hJ]
  simp only [Bool.false_eq_true, if_false]
  rw [hcont]
  simp only [if_true]
  rw [hS1, hsingle]
  rfl

theorem cleanJson_no_fence (raw : String)
    (hJ : pyContains raw jsonFenceMark = false) (hF : pyContains raw fenceMark = false) :
    cleanJson raw = raw := by
  unfold cleanJson
  rw [hJ, hF]
  simp

/-- C4 counterexample: for the response text holding a plain fenced block
("x") followed by a json-tagged fenced block ("y"), the extraction parses
the content of the json-tagged fence — not the content between the first
fence pair, which is "x". -/
theorem c4_counterexample :
    cleanJson "```x```\n```json\ny\n```" = "\ny\n" ∧
    (pySplitOn "```x```\n```json\ny\n```" fenceMark).getD 1 "" = "x" ∧
    ("\ny\n" : String) ≠ "x" := by
  refine ⟨by decide, by decide, by decide⟩

/-- C4 (amended): the extraction prefers the json-tagged fence: if "```json"
occurs, the parsed content is the text between the first "```json" marker
and the next "```" marker, even when a plain fence pair precedes it;
otherwise, if "```" occurs, the content between the first two "```" markers
is parsed; with no fence markers the raw text is parsed directly.  The fenced
forms are stated for well-formed fencing (no stray backticks inside the
surrounding segments, and trailing content not beginning with "json"). -/
theorem c4_amended :
    (∀ A B C : String,
      (∀ c ∈ A.data, c ≠ btChar) → (∀ c ∈ B.data, c ≠ btChar) →
      (∀ c ∈ C.data, c ≠ btChar) →
      leadsWith ('j' :: 's' :: 'o' :: 'n' :: []) C.data = false →
      cleanJson (A ++ jsonFenceMark ++ B ++ fenceMark ++ C) = B) ∧
    (∀ A B C : String,
      (∀ c ∈ A.data, c ≠ btChar) → (∀ c ∈ B.data, c ≠ btChar) →
      pyContains (A ++ fenceMark ++ B ++ fenceMark ++ C) jsonFenceMark = false →
      cleanJson (A ++ fenceMark ++ B ++ fenceMark ++ C) = B) ∧
    (∀ raw : String,
      pyContains raw jsonFenceMark = false → pyContains raw fenceMark = false →
      cleanJson raw = raw) ∧
    cleanJson "```x```\n```json\ny\n```" = "\ny\n" :=
  ⟨cleanJson_json_fence, cleanJson_plain_fence, cleanJson_no_fence, by decide⟩

/-- Witness for C4 (amended): the three extraction modes at concrete
responses — a json-tagged fence, a plain fence, and no fence at all. -/
theorem c4_witness :
    cleanJson ("reply: " ++ jsonFenceMark ++ "\x7b\x7d" ++ fenceMark ++ " done") = "\x7b\x7d" ∧
    cleanJson ("a" ++ fenceMark ++ "b" ++ fenceMark ++ "c") = "b" ∧
    cleanJson "plain text" = "plain text" :=
  ⟨c4_amended.1 "reply: " "\x7b\x7d" " done" (by decide) (by decide) (by decide) (by decide),
   c4_amended.2.1 "a" "b" "c" (by decide) (by decide) (by decide),
   c4_amended.2.2.1 "plain text" (by decide) (by decide)⟩

/-- Witness for C10 (amended): a summary consisting of one 81-character word
triggers the flush on the last word, so the renderer emits that line plus an
empty trailing line, and the "Did You Know?" heading sits one extra line
height lower. -/
theorem c10_witness :
    ∃ L ops, create_infographic_pdf
        [("summary", PyVal.str "aaaaaaaaaaaaaaaaaaaaaaaaaaaaaaaaaaaaaaaaaaaaaaaaaaaaaaaaaaaaaaaaaaaaaaaaaaaaaaaaa")]
        "infographic.pdf" = .ok (ops, "infographic.pdf") ∧
      textsOf ops = [L ++ [""]] ∧ 2 ≤ (L ++ [""]).length ∧
      dykYOf ops = some (dykY (L.length + 1)) :=
  (c10_amended.2.2
    [("summary", PyVal.str "aaaaaaaaaaaaaaaaaaaaaaaaaaaaaaaaaaaaaaaaaaaaaaaaaaaaaaaaaaaaaaaaaaaaaaaaaaaaaaaaa")]
    "infographic.pdf" [] rfl (fun x hx => absurd hx (List.not_mem_nil x))).2.2
    "aaaaaaaaaaaaaaaaaaaaaaaaaaaaaaaaaaaaaaaaaaaaaaaaaaaaaaaaaaaaaaaaaaaaaaaaaaaaaaaaa"
    rfl (by decide) (by decide)
